import Mathlib

/-!
Shallow embedding of the scene-to-final-video compilation pipeline of the
VideoAgent repository (src/agents/video_compiler_agent.py,
src/agents/video_illustration_agent.py, src/video_generation_orchestrator.py).

Clips are modelled by their duration in seconds (an exact rational) together
with a sampling map from output time to the source time shown at that output
time, which is enough to state the trimming, looping and concatenation
semantics of the moviepy operations the code uses.
-/

namespace VideoAgent

/-- Model of a moviepy clip: a duration plus a map from output time to the
time of the underlying source footage shown at that output time. -/
structure Clip where
  duration : ℚ
  sample : ℚ → ℚ

/-- Model of clip.subclipped(a, b): the part of the clip between times a and b. -/
def Clip.subclipped (c : Clip) (a b : ℚ) : Clip :=
  { duration := b - a, sample := fun x => c.sample (a + x) }

/-- Model of moviepy concatenate_videoclips with the chain method: durations
add and playback runs through the clips in order. -/
def concatClips : List Clip → Clip
  | [] => { duration := 0, sample := fun _ => 0 }
  | c :: cs =>
      { duration := c.duration + (concatClips cs).duration
      , sample := fun x =>
          if x < c.duration then c.sample x else (concatClips cs).sample (x - c.duration) }

/-- Model of with_duration applied to the 0.1s tail slice in the fallback of
_create_looped_video: a freeze frame held for d seconds. -/
def freezeFrame (c : Clip) (d : ℚ) : Clip :=
  { duration := d, sample := fun _ => c.sample 0 }

/-- Model of the python builtin int applied to a nonintegral number:
truncation toward zero. -/
def pythonInt (x : ℚ) : ℤ :=
  if 0 ≤ x then ⌊x⌋ else -⌊-x⌋

/-- Model of VideoCompilerAgent._create_looped_video, lines 44-62 (the path
where no exception is raised): if the clip is already long enough it is
trimmed to the target; otherwise int(target / duration) + 1 copies are
concatenated and the concatenation is trimmed back to the target. -/
def createLoopedVideo (c : Clip) (target : ℚ) : Clip :=
  if target ≤ c.duration then
    c.subclipped 0 target
  else
    let numLoops : ℕ := (pythonInt (target / c.duration)).toNat + 1
    let looped := concatClips (List.replicate numLoops c)
    if target < looped.duration then looped.subclipped 0 target else looped

/-- Model of the except branch of _create_looped_video, lines 64-74: trim if
long enough, otherwise extend the clip with a freeze frame made from its
final 0.1 seconds so that the total covers exactly the target. -/
def createLoopedVideoFallback (c : Clip) (target : ℚ) : Clip :=
  if target ≤ c.duration then
    c.subclipped 0 target
  else
    let lastFrame := c.subclipped (c.duration - 1/10) c.duration
    let extendedFrame := freezeFrame lastFrame (target - c.duration)
    concatClips [c, extendedFrame]

/-- A source asset of duration d: output time x shows source time x. -/
def assetClip (d : ℚ) : Clip :=
  { duration := d, sample := fun x => x }

/-- One caption line of VideoCompilerAgent.extract_dialogue_from_content;
the stop field embeds the "end" key of the python dict. -/
structure DialogueLine where
  text : String
  start : ℚ
  stop : ℚ
deriving DecidableEq

/-- Model of VideoCompilerAgent.extract_dialogue_from_content, lines 340-360:
an empty content list yields no dialogue entries; otherwise the audio
duration is divided evenly and line i spans from i times the share to the
minimum of (i+1) times the share and the audio duration. -/
def extract_dialogue_from_content (content : List String) (audioDuration : ℚ) :
    List DialogueLine :=
  if content.isEmpty then []
  else
    let totalLines : ℕ := content.length
    let timePerLine : ℚ := audioDuration / totalLines
    content.enum.map fun p =>
      { text := p.2.trim
      , start := (p.1 : ℚ) * timePerLine
      , stop := min (((p.1 : ℚ) + 1) * timePerLine) audioDuration }

/-- Start time of caption window i (0 when the index is out of range). -/
def dialogueStart (content : List String) (D : ℚ) (i : ℕ) : ℚ :=
  ((extract_dialogue_from_content content D).map DialogueLine.start).getD i 0

/-- Stop time of caption window i (0 when the index is out of range). -/
def dialogueStop (content : List String) (D : ℚ) (i : ℕ) : ℚ :=
  ((extract_dialogue_from_content content D).map DialogueLine.stop).getD i 0

/-- Test that the needle occurs at the head of the haystack. -/
def isPre : List Char → List Char → Bool
  | [], _ => true
  | _ :: _, [] => false
  | a :: as, b :: bs => a == b && isPre as bs

/-- Test that the needle occurs somewhere in the haystack. -/
def hasSeg : List Char → List Char → Bool
  | [], needle => needle.isEmpty
  | hay@(_ :: t), needle => isPre needle hay || hasSeg t needle

/-- Model of the python substring test needle in hay. -/
def strContains (hay needle : String) : Bool :=
  hasSeg hay.toList needle.toList

/-- Model of the python test s.startswith(p). -/
def strStartsWith (s p : String) : Bool :=
  isPre p.toList s.toList

/-- Model of the python str.lower method, applied characterwise. -/
def strLower (s : String) : String :=
  String.mk (s.toList.map Char.toLower)

/-- Model of joining the content lines of a scene and lowercasing, as in
lines 90-91 of video_compiler_agent.py. -/
def sceneText (content : List String) : String :=
  strLower (String.intercalate " " content)

/-- The transition palette of VideoCompilerAgent (lines 25-31). -/
def transitionEffects : List String :=
  ["crossfade", "fade_to_black", "zoom_in", "zoom_out", "quick_fade"]

/-- Action and movement vocabulary (line 94). -/
def actionKeywords : List String :=
  ["move", "run", "walk", "travel", "journey", "go", "arrive", "leave", "fast", "quick"]

/-- Dramatic and emotional vocabulary (line 99). -/
def dramaticKeywords : List String :=
  ["dramatic", "emotional", "sad", "happy", "surprise", "shock", "reveal"]

/-- Temporal vocabulary (line 104). -/
def timeKeywords : List String :=
  ["time", "then", "next", "after", "before", "meanwhile", "suddenly"]

/-- Scale and size vocabulary (line 109). -/
def scaleKeywords : List String :=
  ["big", "small", "large", "tiny", "huge", "grow", "shrink", "expand"]

/-- Test whether any keyword of the list occurs in either content string,
as in any(keyword in prev_content or keyword in next_content ...). -/
def anyKeyword (kws : List String) (prevContent nextContent : String) : Bool :=
  kws.any fun k => strContains prevContent k || strContains nextContent k

/-- Model of random.choice on a nonempty list: an arbitrary pick index is
reduced modulo the list length; the default is never used because every
list offered by the transition selector is nonempty. -/
def randomChoice (pick : ℕ) (l : List String) : String :=
  l.getD (pick % l.length) "crossfade"

/-- Model of VideoCompilerAgent._select_dynamic_transition, lines 88-125.
The python random.choice calls are modelled by arbitrary pick indices
choosing a member of the offered list, and the try/except wrapper by the
errored flag: any internal error yields crossfade. -/
def selectDynamicTransition (errored : Bool) (prevContentList nextContentList : List String)
    (transitionIndex : ℕ) (pickA pickD pickS : ℕ) : String :=
  if errored then "crossfade"
  else
    let prevContent := sceneText prevContentList
    let nextContent := sceneText nextContentList
    if anyKeyword actionKeywords prevContent nextContent then
      randomChoice pickA ["zoom_in", "zoom_out", "quick_fade"]
    else if anyKeyword dramaticKeywords prevContent nextContent then
      randomChoice pickD ["fade_to_black", "crossfade"]
    else if anyKeyword timeKeywords prevContent nextContent then
      "quick_fade"
    else if anyKeyword scaleKeywords prevContent nextContent then
      randomChoice pickS ["zoom_in", "zoom_out"]
    else if transitionIndex % 4 = 0 then "crossfade"
    else if transitionIndex % 4 = 1 then "zoom_in"
    else if transitionIndex % 4 = 2 then "fade_to_black"
    else "quick_fade"

/-- Typed failure reasons of download_video_from_url. -/
inductive DlFailure
  | invalidURL
  | wrongContentType
  | oversizeAsset
  | emptyFile
  | corruptAsset
  | networkError
deriving DecidableEq

/-- Model of an HTTP response: declared headers plus the body as a list of
chunk byte sizes; midStreamError marks a requests exception raised while
the body is being streamed, after the listed chunks were written. -/
structure HttpResponse where
  contentType : String
  contentLength : Option ℕ
  chunks : List ℕ
  midStreamError : Bool
deriving DecidableEq

/-- Outcome of the initial requests.get call: either it raises before any
body is consumed, or it yields a response. -/
inductive FetchOutcome
  | requestError
  | response (r : HttpResponse)

/-- Observable outcome of download_video_from_url: the failure reason of the
returned dict (none on success), the file (chunk sizes) present at
output_path when the call returns, and whether a network request was made
at all. -/
structure DownloadOutcome where
  failure : Option DlFailure
  fileAt : Option (List ℕ)
  madeRequest : Bool
deriving DecidableEq

/-- The content-type acceptance test of lines 589-590: the lowercased header
must contain video or application/octet-stream. -/
def videoContentTypeOk (ct : String) : Bool :=
  strContains (strLower ct) "video" || strContains (strLower ct) "application/octet-stream"

/-- Model of VideoCompilerAgent.download_video_from_url, lines 557-681.
The url guard runs before any network call; the content-type and declared
content-length guards run before any body byte is written; the body is then
streamed to output_path (falsy chunks are skipped by the if chunk filter); a
requests exception raised mid stream is caught by the RequestException
handler, which returns failure without removing the partial file; the
empty-file check also returns failure without removing the file; a moviepy
decode failure removes the file before returning failure. -/
def download_video_from_url (videoUrl : String) (maxFileSizeMb : ℕ)
    (fetch : FetchOutcome) (decodesAsVideo : Bool) : DownloadOutcome :=
  if !(strStartsWith videoUrl "http://" || strStartsWith videoUrl "https://") then
    { failure := some .invalidURL, fileAt := none, madeRequest := false }
  else
    match fetch with
    | .requestError =>
        { failure := some .networkError, fileAt := none, madeRequest := true }
    | .response r =>
        if !videoContentTypeOk r.contentType then
          { failure := some .wrongContentType, fileAt := none, madeRequest := true }
        else if (match r.contentLength with
                 | some len => decide ((len : ℚ) / (1024 * 1024) > (maxFileSizeMb : ℚ))
                 | none => false) then
          { failure := some .oversizeAsset, fileAt := none, madeRequest := true }
        else
          let fileChunks := r.chunks.filter (fun sz => sz ≠ 0)
          if r.midStreamError then
            { failure := some .networkError, fileAt := some fileChunks, madeRequest := true }
          else if fileChunks.sum = 0 then
            { failure := some .emptyFile, fileAt := some fileChunks, madeRequest := true }
          else if !decodesAsVideo then
            { failure := some .corruptAsset, fileAt := none, madeRequest := true }
          else
            { failure := none, fileAt := some fileChunks, madeRequest := true }

/-- Model of VideoIllustrationAgent.get_unique_video_for_scene, lines
225-246, restricted to its interaction with the used-videos set: the
provider search yields candidate URLs in rank order; the first truthy
candidate not in used_videos is returned and added to the set; keyword
failure or an empty search is an empty candidate list. -/
def getUniqueVideoForScene (searchResults usedVideos : List String) :
    Option String × List String :=
  match searchResults.find? (fun u => !(u == "") && !(usedVideos.contains u)) with
  | some u => (some u, u :: usedVideos)
  | none => (none, usedVideos)

/-- How the visual track of a scene was produced. -/
inductive VisualKind
  | manimVideo
  | remoteFootage (url : String)
  | placeholderTitle
  | placeholderContent
deriving DecidableEq

/-- Per-scene inputs and collaborator behaviour for create_scene_video.
downloadOk tells whether download_video_from_url plus opening the
downloaded file succeeds for a url; downloadedDuration gives the duration
of the footage at that url; searchResults is the candidate list the
illustration agent search yields for this scene. -/
structure SceneEnv where
  audioExists : Bool
  audioDuration : ℚ
  manimVideo : Option ℚ
  downloadOk : String → Bool
  downloadedDuration : String → ℚ
  searchResults : List String
  content : List String
  addCaptions : Bool
  hasAgent : Bool

/-- Observable outcome of create_scene_video: the success flag, the duration
of the written scene clip, the duration field of the returned dict, the
visual source used, and how many remote download attempts were made. -/
structure SceneResult where
  success : Bool
  clipDuration : ℚ
  reportedDuration : ℚ
  visual : Option VisualKind
  resolutionAttempts : ℕ
deriving DecidableEq

/-- Largest stop time among caption clips. -/
def captionsStop : List DialogueLine → ℚ
  | [] => 0
  | d :: ds => max d.stop (captionsStop ds)

/-- Model of add_captions_to_video, lines 296-327: compositing the base clip
with the caption clips keeps the maximum of their durations; with no
dialogue the base clip is returned unchanged. -/
def addCaptionsToVideoDuration (base : ℚ) (dialogue : List DialogueLine) : ℚ :=
  if dialogue.isEmpty then base else max base (captionsStop dialogue)

/-- Duration of the written scene clip after the caption step of
create_scene_video, lines 497-509: captions are attached only when content
is present and add_captions is set. -/
def sceneFinalDuration (env : SceneEnv) (base : ℚ) : ℚ :=
  if !env.content.isEmpty && env.addCaptions then
    addCaptionsToVideoDuration base
      (extract_dialogue_from_content env.content env.audioDuration)
  else base

/-- Model of one invocation of VideoCompilerAgent.create_scene_video, lines
378-543, with the python self-recursion abstracted into the recur argument
(instantiated below through a fuel parameter that is provably sufficient,
so the fuel-exhaustion branch is unreachable). The state threaded through
is the video_url field of scene_data and the used-videos set of the
illustration agent. A present manim video is looped
to the audio duration; otherwise a truthy video_url is downloaded, and on
success looped to the audio duration; on download or processing failure,
if an agent and content are available, get_unique_video_for_scene is asked
for a fresh url and the whole function recurses on it, else a colored
placeholder with the scene title is used; with no video_url at all, the
agent is likewise consulted and the function recurses, else a colored
placeholder with the scene content is used. -/
def createSceneVideoStep (env : SceneEnv)
    (recur : Option String → List String → SceneResult × List String)
    (videoUrl : Option String) (used : List String) : SceneResult × List String :=
  if !env.audioExists then
    ({ success := false, clipDuration := 0, reportedDuration := 0,
       visual := none, resolutionAttempts := 0 }, used)
  else
    match env.manimVideo with
    | some manimDuration =>
        let base := (createLoopedVideo (assetClip manimDuration) env.audioDuration).duration
        ({ success := true, clipDuration := sceneFinalDuration env base,
           reportedDuration := env.audioDuration, visual := some .manimVideo,
           resolutionAttempts := 0 }, used)
    | none =>
        match (match videoUrl with
               | some u => if u = "" then none else some u
               | none => none) with
        | some url =>
            if env.downloadOk url then
              let base := (createLoopedVideo (assetClip (env.downloadedDuration url))
                  env.audioDuration).duration
              ({ success := true, clipDuration := sceneFinalDuration env base,
                 reportedDuration := env.audioDuration,
                 visual := some (.remoteFootage url),
                 resolutionAttempts := 1 }, used)
            else if env.hasAgent && !env.content.isEmpty then
              match getUniqueVideoForScene env.searchResults used with
              | (some newUrl, used1) =>
                  let r := recur (some newUrl) used1
                  ({ success := r.1.success, clipDuration := r.1.clipDuration,
                     reportedDuration := r.1.reportedDuration, visual := r.1.visual,
                     resolutionAttempts := r.1.resolutionAttempts + 1 }, r.2)
              | (none, used1) =>
                  ({ success := true,
                     clipDuration := sceneFinalDuration env env.audioDuration,
                     reportedDuration := env.audioDuration,
                     visual := some .placeholderTitle,
                     resolutionAttempts := 1 }, used1)
            else
              ({ success := true,
                 clipDuration := sceneFinalDuration env env.audioDuration,
                 reportedDuration := env.audioDuration,
                 visual := some .placeholderTitle,
                 resolutionAttempts := 1 }, used)
        | none =>
            if env.hasAgent && !env.content.isEmpty then
              match getUniqueVideoForScene env.searchResults used with
              | (some newUrl, used1) => recur (some newUrl) used1
              | (none, used1) =>
                  ({ success := true,
                     clipDuration := sceneFinalDuration env env.audioDuration,
                     reportedDuration := env.audioDuration,
                     visual := some .placeholderContent,
                     resolutionAttempts := 0 }, used1)
            else
              ({ success := true,
                 clipDuration := sceneFinalDuration env env.audioDuration,
                 reportedDuration := env.audioDuration,
                 visual := some .placeholderContent,
                 resolutionAttempts := 0 }, used)

/-- The recursion drained of fuel never happens for the fuel chosen by the
createSceneVideo wrapper; running out returns a failure marker. -/
def createSceneVideoAux (env : SceneEnv) : ℕ → Option String → List String →
    SceneResult × List String
  | 0, _, used =>
      ({ success := false, clipDuration := 0, reportedDuration := 0,
         visual := none, resolutionAttempts := 0 }, used)
  | fuel + 1, videoUrl, used =>
      createSceneVideoStep env (createSceneVideoAux env fuel) videoUrl used

/-- Unused candidates of the agent search still available for retries. -/
def unusedCandidates (env : SceneEnv) (used : List String) : ℕ :=
  (env.searchResults.filter (fun u => !(used.contains u))).length

/-- Model of create_scene_video: the fuel supplied strictly dominates the
number of retries that can still happen, because every retry consumes one
fresh candidate from the agent search. -/
def createSceneVideo (env : SceneEnv) (videoUrl : Option String)
    (used : List String) : SceneResult × List String :=
  createSceneVideoAux env (unusedCandidates env used + 1) videoUrl used

/-- Outcome of compile_final_video restricted to the values the claims are
about: the total_duration field, the logged transitions, and the written
scene clips. -/
structure CompileOutcome where
  totalDuration : ℚ
  transitionsUsed : List String
  clipDurations : List ℚ
  visuals : List (Option VisualKind)

/-- The per-scene loop of compile_final_video, lines 706-717: scenes are
processed in order, threading the used-videos set; the first failing scene
aborts the whole compilation. -/
def compileScenesLoop : List (SceneEnv × Option String) → List String →
    Option (List SceneResult × List String)
  | [], used => some ([], used)
  | (env, url) :: rest, used =>
      let r := createSceneVideo env url used
      if r.1.success then
        match compileScenesLoop rest r.2 with
        | some (rs, usedF) => some (r.1 :: rs, usedF)
        | none => none
      else none

/-- The transition selection loop of compile_final_video, lines 726-748:
for i from 1, junction i-1 is selected from scenes i-1 and i with
transition index i-1; a single scene needs no transitions. -/
def selectTransitions (contents : List (List String)) (errFlag : ℕ → Bool)
    (picks : ℕ → ℕ × ℕ × ℕ) : List String :=
  if contents.length ≤ 1 then []
  else
    (List.range (contents.length - 1)).map fun j =>
      selectDynamicTransition (errFlag j) (contents.getD j []) (contents.getD (j + 1) [])
        j (picks j).1 (picks j).2.1 (picks j).2.2

/-- Model of compile_final_video, lines 695-813: the used-videos set is
reset, each scene clip is created in order, transitions are selected per
junction, and total_duration is the sum of the per-scene reported
durations (the narration durations), with no contribution from transition
interstitials. -/
def compile_final_video (scenes : List (SceneEnv × Option String))
    (errFlag : ℕ → Bool) (picks : ℕ → ℕ × ℕ × ℕ) : Option CompileOutcome :=
  match compileScenesLoop scenes [] with
  | none => none
  | some (rs, _) =>
      some { totalDuration := (rs.map SceneResult.reportedDuration).sum
           , transitionsUsed := selectTransitions (scenes.map fun s => s.1.content) errFlag picks
           , clipDurations := rs.map SceneResult.clipDuration
           , visuals := rs.map SceneResult.visual }

/-- Durations inserted at a junction by _apply_transition_effect, lines
142-210: fade_to_black inserts a black clip of half the 1.0s effect
duration; every other effect only fades or zooms existing frames in place,
leaving both clip durations unchanged. -/
def junctionInsertedDurations (transitionType : String) : List ℚ :=
  if transitionType = "fade_to_black" then [1 / 2] else []

/-- Durations of the clips concatenated into the final timeline: the scene
clips in order, with the interstitials inserted by the selected
transitions. -/
def timelineDurations (ds : List ℚ) (ts : List String) : List ℚ :=
  match ds with
  | [] => []
  | d0 :: rest =>
      d0 :: (rest.zip ts).foldr
        (fun p acc => junctionInsertedDurations p.2 ++ p.1 :: acc) []

/-- Physical duration of the emitted timeline file. -/
def compiledPhysicalDuration (c : CompileOutcome) : ℚ :=
  (timelineDurations c.clipDurations c.transitionsUsed).sum

/-- Model of add_intro_outro, lines 834-884: a fixed 3 second card is
prepended when intro text is given and a fixed 3 second card is appended
when outro text is given. -/
def addIntroOutroDuration (d : ℚ) (intro outro : Bool) : ℚ :=
  (if intro then 3 else 0) + d + (if outro then 3 else 0)

/-- The per-scene pass of VideoGenerationOrchestrator.generate_video, lines
62-80 with _process_scene lines 122-194: before compilation each scene
without a manim illustration is assigned a video_url through
get_unique_video_for_scene, threading the used-videos set of the
illustration agent; a failed search leaves the scene with the text-overlay
path (no url). -/
def processScenesAssign : List SceneEnv → List String →
    List (SceneEnv × Option String) × List String
  | [], used => ([], used)
  | env :: rest, used =>
      if env.manimVideo.isSome then
        let p := processScenesAssign rest used
        ((env, none) :: p.1, p.2)
      else
        match getUniqueVideoForScene env.searchResults used with
        | (some url, used1) =>
            let p := processScenesAssign rest used1
            ((env, some url) :: p.1, p.2)
        | (none, used1) =>
            let p := processScenesAssign rest used1
            ((env, none) :: p.1, p.2)

/-- Model of VideoGenerationOrchestrator.generate_video, lines 29-120: the
scenes are enriched by the per-scene pass starting from an empty used
set, then compiled; the total_duration of the compilation result is
propagated unchanged into the final result (line 116). -/
def generate_video (envs : List SceneEnv) (errFlag : ℕ → Bool)
    (picks : ℕ → ℕ × ℕ × ℕ) : Option (ℚ × CompileOutcome) :=
  let scenes := (processScenesAssign envs []).1
  match compile_final_video scenes errFlag picks with
  | none => none
  | some c => some (c.totalDuration, c)

/-- Fixture: a scene with an existing 3s manim illustration and 2s of
narration, no illustration agent. -/
def truncSceneEnv : SceneEnv :=
  { audioExists := true, audioDuration := 2, manimVideo := some 3
  , downloadOk := fun _ => false, downloadedDuration := fun _ => 1
  , searchResults := [], content := ["hello world"], addCaptions := true
  , hasAgent := false }

/-- Fixture: a scene with no manim video and no illustration agent. -/
def noAgentEnv : SceneEnv :=
  { audioExists := true, audioDuration := 1, manimVideo := none
  , downloadOk := fun _ => false, downloadedDuration := fun _ => 1
  , searchResults := [], content := ["x"], addCaptions := true
  , hasAgent := false }

/-- Fixture: a scene whose downloads always fail while the illustration
agent offers two fresh candidate urls, so the retry-by-recursion runs the
fallback chain to exhaustion. -/
def retryCexEnv : SceneEnv :=
  { audioExists := true, audioDuration := 1, manimVideo := none
  , downloadOk := fun _ => false, downloadedDuration := fun _ => 1
  , searchResults := ["a", "b"], content := ["x"], addCaptions := false
  , hasAgent := true }

/-- Fixture: first scene of a two-scene run; only the url a downloads. -/
def runCexEnvA : SceneEnv :=
  { audioExists := true, audioDuration := 1, manimVideo := none
  , downloadOk := fun u => u == "a", downloadedDuration := fun _ => 2
  , searchResults := ["a"], content := ["x"], addCaptions := false
  , hasAgent := true }

/-- Fixture: second scene of the two-scene run; its provider search ranks
b first and a second, and only the url a downloads. -/
def runCexEnvB : SceneEnv :=
  { audioExists := true, audioDuration := 1, manimVideo := none
  , downloadOk := fun u => u == "a", downloadedDuration := fun _ => 2
  , searchResults := ["b", "a"], content := ["x"], addCaptions := false
  , hasAgent := true }

theorem concatClips_replicate_duration (n : ℕ) (c : Clip) :
    (concatClips (List.replicate n c)).duration = n * c.duration := by
  induction n with
  | zero => simp [concatClips]
  | succ k ih =>
      simp only [List.replicate_succ, concatClips, ih]
      push_cast
      ring

theorem pythonInt_of_nonneg (x : ℚ) (hx : 0 ≤ x) : pythonInt x = ⌊x⌋ := by
  simp [pythonInt, hx]

/-- When the clip is strictly shorter than the target, the number of copies
chosen by _create_looped_video suffices: the concatenation of
int(target / duration) + 1 copies is strictly longer than the target. -/
theorem target_lt_loops_mul (d target : ℚ) (hd : 0 < d) (h : d < target) :
    target < (((pythonInt (target / d)).toNat + 1 : ℕ) : ℚ) * d := by
  have htpos : 0 < target := hd.trans h
  have hdiv : 0 ≤ target / d := le_of_lt (div_pos htpos hd)
  have hfl : pythonInt (target / d) = ⌊target / d⌋ := pythonInt_of_nonneg _ hdiv
  have hq0 : (0 : ℤ) ≤ ⌊target / d⌋ := Int.floor_nonneg.mpr hdiv
  have h2 : ((⌊target / d⌋.toNat : ℕ) : ℚ) = ((⌊target / d⌋ : ℤ) : ℚ) := by
    exact_mod_cast congrArg (fun z : ℤ => (z : ℚ)) (Int.toNat_of_nonneg hq0)
  have hcast : (((pythonInt (target / d)).toNat + 1 : ℕ) : ℚ)
      = ((⌊target / d⌋ : ℤ) : ℚ) + 1 := by
    rw [hfl]
    push_cast
    rw [h2]
  rw [hcast]
  have h1 : target / d < (⌊target / d⌋ : ℚ) + 1 := Int.lt_floor_add_one _
  calc target = target / d * d := by field_simp
    _ < ((⌊target / d⌋ : ℚ) + 1) * d := by
        exact mul_lt_mul_of_pos_right h1 hd

/-- The duration reconciler always produces exactly the target duration. -/
theorem createLoopedVideo_duration (c : Clip) (target : ℚ) (hd : 0 < c.duration) :
    (createLoopedVideo c target).duration = target := by
  unfold createLoopedVideo
  by_cases h : target ≤ c.duration
  · simp [h, Clip.subclipped]
  · have h' : c.duration < target := not_le.mp h
    have hlt := target_lt_loops_mul c.duration target hd h'
    simp only [h, if_false]
    rw [← concatClips_replicate_duration] at hlt
    simp [hlt, Clip.subclipped]

/-- The freeze-frame fallback of the duration reconciler also produces
exactly the target duration. -/
theorem createLoopedVideoFallback_duration (c : Clip) (target : ℚ) :
    (createLoopedVideoFallback c target).duration = target := by
  unfold createLoopedVideoFallback
  by_cases h : target ≤ c.duration
  · simp [h, Clip.subclipped]
  · simp only [h, if_false]
    simp [concatClips, freezeFrame, Clip.subclipped]

theorem extract_dialogue_length (content : List String) (D : ℚ) :
    (extract_dialogue_from_content content D).length = content.length := by
  by_cases h : content.isEmpty
  · rw [List.isEmpty_iff] at h
    subst h
    simp [extract_dialogue_from_content]
  · simp [extract_dialogue_from_content, h]

theorem extract_dialogue_getElem (content : List String) (D : ℚ) (i : ℕ)
    (hi : i < content.length)
    (hi2 : i < (extract_dialogue_from_content content D).length) :
    (extract_dialogue_from_content content D)[i] =
      { text := content[i].trim
      , start := (i : ℚ) * (D / content.length)
      , stop := min (((i : ℚ) + 1) * (D / content.length)) D } := by
  have hne : ¬ content.isEmpty := by
    intro h
    rw [List.isEmpty_iff] at h
    subst h
    exact absurd hi (by simp)
  simp [extract_dialogue_from_content, hne, List.getElem_map, List.getElem_enum]

theorem dialogueStart_eq (content : List String) (D : ℚ) (i : ℕ)
    (hi : i < content.length) :
    dialogueStart content D i = (i : ℚ) * (D / content.length) := by
  unfold dialogueStart
  have hlen : i < ((extract_dialogue_from_content content D).map DialogueLine.start).length := by
    simp [extract_dialogue_length, hi]
  rw [List.getD_eq_getElem _ _ hlen, List.getElem_map,
    extract_dialogue_getElem content D i hi]

theorem dialogueStop_eq (content : List String) (D : ℚ) (i : ℕ)
    (hi : i < content.length) :
    dialogueStop content D i = min (((i : ℚ) + 1) * (D / content.length)) D := by
  unfold dialogueStop
  have hlen : i < ((extract_dialogue_from_content content D).map DialogueLine.stop).length := by
    simp [extract_dialogue_length, hi]
  rw [List.getD_eq_getElem _ _ hlen, List.getElem_map,
    extract_dialogue_getElem content D i hi]

theorem window_mul_le (N k : ℕ) (D : ℚ) (hk : k ≤ N) (hN : 0 < N) (hD : 0 ≤ D) :
    (k : ℚ) * (D / N) ≤ D := by
  have h1 : ((k : ℕ) : ℚ) ≤ ((N : ℕ) : ℚ) := by exact_mod_cast hk
  have h2 : (0 : ℚ) ≤ D / N := div_nonneg hD (by positivity)
  have hN0 : ((N : ℕ) : ℚ) ≠ 0 := by
    have : (0 : ℚ) < N := by exact_mod_cast hN
    exact ne_of_gt this
  calc (k : ℚ) * (D / N) ≤ (N : ℚ) * (D / N) := mul_le_mul_of_nonneg_right h1 h2
    _ = D := by field_simp

theorem dialogue_chain (content : List String) (D : ℚ) (hD : 0 ≤ D) (i : ℕ)
    (h : i + 1 < content.length) :
    dialogueStop content D i = dialogueStart content D (i + 1) := by
  rw [dialogueStop_eq content D i (by omega), dialogueStart_eq content D (i + 1) h]
  have hcast : ((i : ℚ) + 1) = ((i + 1 : ℕ) : ℚ) := by push_cast; ring
  rw [hcast]
  exact min_eq_left
    (window_mul_le content.length (i + 1) D (by omega) (by omega) hD)

theorem dialogue_first (content : List String) (D : ℚ) (hne : content ≠ []) :
    dialogueStart content D 0 = 0 := by
  have hN : 0 < content.length := List.length_pos.mpr hne
  rw [dialogueStart_eq content D 0 hN]
  simp

theorem dialogue_last (content : List String) (D : ℚ) (hne : content ≠ [])
    (hD : 0 ≤ D) :
    dialogueStop content D (content.length - 1) = D := by
  have hN : 0 < content.length := List.length_pos.mpr hne
  rw [dialogueStop_eq content D (content.length - 1) (by omega)]
  have hcast : ((content.length - 1 : ℕ) : ℚ) + 1 = (content.length : ℚ) := by
    have h1 : (1 : ℕ) ≤ content.length := hN
    push_cast [h1]
    ring
  rw [hcast]
  have hN0 : ((content.length : ℕ) : ℚ) ≠ 0 := by
    have : (0 : ℚ) < content.length := by exact_mod_cast hN
    exact ne_of_gt this
  rw [mul_div_cancel₀ D hN0]
  exact min_self D

theorem dialogue_cover (content : List String) (D : ℚ) (hne : content ≠ [])
    (hD : 0 ≤ D) (t : ℚ) (h0 : 0 ≤ t) (h1 : t ≤ D) :
    ∃ i, i < content.length ∧ dialogueStart content D i ≤ t
      ∧ t ≤ dialogueStop content D i := by
  have hN : 0 < content.length := List.length_pos.mpr hne
  rcases eq_or_lt_of_le hD with hD0 | hDpos
  · refine ⟨0, hN, ?_, ?_⟩
    · rw [dialogueStart_eq content D 0 hN]
      simpa using h0
    · rw [dialogueStop_eq content D 0 hN]
      have ht : t = 0 := le_antisymm (h1.trans (le_of_eq hD0.symm)) h0
      rw [ht, ← hD0]
      simp
  · have hΔpos : (0 : ℚ) < D / content.length := by
      apply div_pos hDpos
      exact_mod_cast hN
    set Δ : ℚ := D / content.length with hΔdef
    by_cases hjN : ⌊t / Δ⌋₊ < content.length
    · refine ⟨⌊t / Δ⌋₊, hjN, ?_, ?_⟩
      · rw [dialogueStart_eq content D _ hjN, ← hΔdef]
        have h2 : ((⌊t / Δ⌋₊ : ℕ) : ℚ) ≤ t / Δ := Nat.floor_le (div_nonneg h0 hΔpos.le)
        calc ((⌊t / Δ⌋₊ : ℕ) : ℚ) * Δ ≤ t / Δ * Δ :=
              mul_le_mul_of_nonneg_right h2 hΔpos.le
          _ = t := by field_simp
      · rw [dialogueStop_eq content D _ hjN, ← hΔdef]
        apply le_min _ h1
        have h3 : t / Δ < ((⌊t / Δ⌋₊ : ℕ) : ℚ) + 1 := Nat.lt_floor_add_one (t / Δ)
        calc t = t / Δ * Δ := by field_simp
          _ ≤ (((⌊t / Δ⌋₊ : ℕ) : ℚ) + 1) * Δ :=
              mul_le_mul_of_nonneg_right h3.le hΔpos.le
    · refine ⟨content.length - 1, by omega, ?_, ?_⟩
      · rw [dialogueStart_eq content D _ (by omega), ← hΔdef]
        have h4 : ((content.length - 1 : ℕ) : ℚ) ≤ t / Δ := by
          have h5 : (content.length - 1 : ℕ) ≤ ⌊t / Δ⌋₊ := by omega
          have h6 : ((content.length - 1 : ℕ) : ℚ) ≤ ((⌊t / Δ⌋₊ : ℕ) : ℚ) := by
            exact_mod_cast h5
          exact h6.trans (Nat.floor_le (div_nonneg h0 hΔpos.le))
        calc ((content.length - 1 : ℕ) : ℚ) * Δ ≤ t / Δ * Δ :=
              mul_le_mul_of_nonneg_right h4 hΔpos.le
          _ = t := by field_simp
      · rw [dialogueStop_eq content D _ (by omega), ← hΔdef]
        have hcast : ((content.length - 1 : ℕ) : ℚ) + 1 = (content.length : ℚ) := by
          have hh : (1 : ℕ) ≤ content.length := hN
          push_cast [hh]
          ring
        rw [hcast]
        have hN0 : ((content.length : ℕ) : ℚ) ≠ 0 := by
          have : (0 : ℚ) < content.length := by exact_mod_cast hN
          exact ne_of_gt this
        rw [hΔdef, mul_div_cancel₀ D hN0]
        simpa using h1

/-- C2: the duration reconciler case analysis of _create_looped_video.
When the asset lasts at least the target, the result is exactly the first
target seconds of the asset; when it is shorter, the reconciler
concatenates floor(target / duration) + 1 copies, whose duration before
truncation is at least the target, and truncates the concatenation to
exactly the target. -/
theorem reconciler_case_analysis (d target : ℚ) (hd : 0 < d) :
    (target ≤ d →
      createLoopedVideo (assetClip d) target = (assetClip d).subclipped 0 target
      ∧ (createLoopedVideo (assetClip d) target).duration = target
      ∧ ∀ x, (createLoopedVideo (assetClip d) target).sample x = x)
    ∧ (d < target →
      (pythonInt (target / d)).toNat + 1 = ⌊target / d⌋.toNat + 1
      ∧ target ≤ (concatClips (List.replicate ((pythonInt (target / d)).toNat + 1)
          (assetClip d))).duration
      ∧ createLoopedVideo (assetClip d) target
          = (concatClips (List.replicate ((pythonInt (target / d)).toNat + 1)
              (assetClip d))).subclipped 0 target
      ∧ (createLoopedVideo (assetClip d) target).duration = target) := by
  constructor
  · intro h
    have he : createLoopedVideo (assetClip d) target = (assetClip d).subclipped 0 target := by
      unfold createLoopedVideo
      rw [if_pos (show target ≤ (assetClip d).duration from h)]
    refine ⟨he, ?_, ?_⟩
    · rw [he]
      simp [Clip.subclipped]
    · intro x
      rw [he]
      simp [Clip.subclipped, assetClip]
  · intro h
    have hfl : pythonInt (target / d) = ⌊target / d⌋ :=
      pythonInt_of_nonneg _ (le_of_lt (div_pos (hd.trans h) hd))
    have hlt := target_lt_loops_mul d target hd h
    have hconc : (concatClips (List.replicate ((pythonInt (target / d)).toNat + 1)
        (assetClip d))).duration
        = (((pythonInt (target / d)).toNat + 1 : ℕ) : ℚ) * d := by
      rw [concatClips_replicate_duration]
      simp [assetClip]
    have he : createLoopedVideo (assetClip d) target
        = (concatClips (List.replicate ((pythonInt (target / d)).toNat + 1)
            (assetClip d))).subclipped 0 target := by
      unfold createLoopedVideo
      rw [if_neg (show ¬ target ≤ (assetClip d).duration from not_le.mpr h)]
      show (if target < (concatClips (List.replicate ((pythonInt (target / d)).toNat + 1)
              (assetClip d))).duration
          then (concatClips (List.replicate ((pythonInt (target / d)).toNat + 1)
              (assetClip d))).subclipped 0 target
          else concatClips (List.replicate ((pythonInt (target / d)).toNat + 1)
              (assetClip d))) = _
      rw [if_pos (by rw [hconc]; exact hlt)]
    refine ⟨by rw [hfl], by rw [hconc]; exact hlt.le, he, ?_⟩
    rw [he]
    simp [Clip.subclipped]

/-- C2 witness: a 15s asset with a 5s target gives exactly the first 5
seconds; a 2s asset with a 10s target concatenates 6 copies, is 12 ≥ 10
seconds long before truncation, and exactly 10 after. -/
theorem reconciler_case_analysis_witness :
    (createLoopedVideo (assetClip 15) 5).duration = 5
    ∧ (∀ x, (createLoopedVideo (assetClip 15) 5).sample x = x)
    ∧ (10 : ℚ) ≤ (concatClips (List.replicate ((pythonInt ((10 : ℚ) / 2)).toNat + 1)
        (assetClip 2))).duration
    ∧ (createLoopedVideo (assetClip 2) 10).duration = 10 := by
  have h15 := (reconciler_case_analysis 15 5 (by norm_num)).1 (by norm_num)
  have h2 := (reconciler_case_analysis 2 10 (by norm_num)).2 (by norm_num)
  exact ⟨h15.2.1, h15.2.2, h2.2.1, h2.2.2.2⟩

theorem length_filter_notContains_cons_lt (pool used : List String) (u : String)
    (hmem : u ∈ pool) (hu : used.contains u = false) :
    (pool.filter fun v => !((u :: used).contains v)).length
      < (pool.filter fun v => !(used.contains v)).length := by
  have hu2 : u ∉ used := by simpa using hu
  induction pool with
  | nil => simp at hmem
  | cons p ps ih =>
      by_cases hp : p = u
      · subst hp
        rw [List.filter_cons_of_neg (by simp), List.filter_cons_of_pos (by simp [hu2])]
        have hmono : (ps.filter fun v => !((p :: used).contains v)).length
            ≤ (ps.filter fun v => !(used.contains v)).length := by
          apply List.Sublist.length_le
          apply List.monotone_filter_right
          intro a ha
          simp at ha ⊢
          tauto
        simp only [List.length_cons]
        omega
      · rcases List.mem_cons.mp hmem with h | hmemps
        · exact absurd h.symm hp
        by_cases hpc : p ∈ used
        · rw [List.filter_cons_of_neg (by simp [hpc]),
            List.filter_cons_of_neg (by simp [hpc])]
          exact ih hmemps
        · rw [List.filter_cons_of_pos (by simp [hpc, hp]),
            List.filter_cons_of_pos (by simp [hpc])]
          simp only [List.length_cons]
          exact Nat.succ_lt_succ (ih hmemps)

theorem captionsStop_le (D : ℚ) (ds : List DialogueLine) (hD : 0 ≤ D)
    (h : ∀ l ∈ ds, l.stop ≤ D) : captionsStop ds ≤ D := by
  induction ds with
  | nil => simpa [captionsStop] using hD
  | cons d ds ih =>
      simp only [captionsStop]
      apply max_le (h d (by simp))
      exact ih fun l hl => h l (by simp [hl])

theorem extract_dialogue_stop_le (content : List String) (D : ℚ) :
    ∀ l ∈ extract_dialogue_from_content content D, l.stop ≤ D := by
  intro l hl
  unfold extract_dialogue_from_content at hl
  by_cases h : content.isEmpty
  · simp [h] at hl
  · simp only [h, if_false] at hl
    obtain ⟨p, hp, heq⟩ := List.exists_of_mem_map hl
    rw [← heq]
    exact min_le_right _ _

theorem sceneFinalDuration_self (env : SceneEnv) (hD : 0 ≤ env.audioDuration) :
    sceneFinalDuration env env.audioDuration = env.audioDuration := by
  unfold sceneFinalDuration
  by_cases h : (!env.content.isEmpty && env.addCaptions) = true
  · rw [if_pos h]
    unfold addCaptionsToVideoDuration
    by_cases h2 : (extract_dialogue_from_content env.content env.audioDuration).isEmpty
    · rw [if_pos h2]
    · rw [if_neg h2]
      exact max_eq_left (captionsStop_le _ _ hD (extract_dialogue_stop_le _ _))
  · rw [if_neg h]

theorem getUniqueVideoForScene_some (pool used : List String) (u : String)
    (used1 : List String)
    (h : getUniqueVideoForScene pool used = (some u, used1)) :
    u ∈ pool ∧ used.contains u = false ∧ u ≠ "" ∧ used1 = u :: used := by
  unfold getUniqueVideoForScene at h
  rcases hf : pool.find? (fun v => !(v == "") && !(used.contains v)) with _ | v
  · rw [hf] at h
    simp at h
  · rw [hf] at h
    simp only [Prod.mk.injEq, Option.some.injEq] at h
    obtain ⟨rfl, rfl⟩ := h
    have hmem := List.mem_of_find?_eq_some hf
    have hpred := List.find?_some hf
    simp only [Bool.and_eq_true, Bool.not_eq_true'] at hpred
    refine ⟨hmem, hpred.2, ?_, rfl⟩
    simpa using hpred.1

theorem unusedCandidates_cons_lt (env : SceneEnv) (used : List String) (u : String)
    (hmem : u ∈ env.searchResults) (hu : used.contains u = false) :
    unusedCandidates env (u :: used) < unusedCandidates env used :=
  length_filter_notContains_cons_lt env.searchResults used u hmem hu

theorem createSceneVideoAux_spec (env : SceneEnv)
    (hA : env.audioExists = true) (hD : 0 ≤ env.audioDuration)
    (hm : ∀ dm, env.manimVideo = some dm → 0 < dm)
    (hdl : ∀ u, 0 < env.downloadedDuration u) :
    ∀ fuel url used, unusedCandidates env used < fuel →
      (createSceneVideoAux env fuel url used).1.success = true
      ∧ (createSceneVideoAux env fuel url used).1.clipDuration = env.audioDuration
      ∧ (createSceneVideoAux env fuel url used).1.reportedDuration = env.audioDuration
      ∧ (createSceneVideoAux env fuel url used).1.resolutionAttempts
          ≤ unusedCandidates env used + 1 := by
  intro fuel
  induction fuel with
  | zero =>
      intro url used h
      exact absurd h (Nat.not_lt_zero _)
  | succ fuel ih =>
      intro url used hfuel
      have hstep : createSceneVideoAux env (fuel + 1) url used
          = createSceneVideoStep env (createSceneVideoAux env fuel) url used := rfl
      rw [hstep]
      unfold createSceneVideoStep
      split
      · next hfalse =>
          rw [hA] at hfalse
          simp at hfalse
      · split
        · next dm hmv =>
            have hbase : (createLoopedVideo (assetClip dm) env.audioDuration).duration
                = env.audioDuration := createLoopedVideo_duration _ _ (hm dm hmv)
            refine ⟨rfl, ?_, rfl, by exact Nat.zero_le _⟩
            show sceneFinalDuration env
                (createLoopedVideo (assetClip dm) env.audioDuration).duration
              = env.audioDuration
            rw [hbase, sceneFinalDuration_self env hD]
        · next hmv =>
            split
            · next u hsome =>
                split
                · next hok =>
                    have hbase : (createLoopedVideo (assetClip (env.downloadedDuration u))
                        env.audioDuration).duration = env.audioDuration :=
                      createLoopedVideo_duration _ _ (hdl u)
                    refine ⟨rfl, ?_, rfl, by exact Nat.le_add_left 1 _⟩
                    show sceneFinalDuration env
                        (createLoopedVideo (assetClip (env.downloadedDuration u))
                          env.audioDuration).duration
                      = env.audioDuration
                    rw [hbase, sceneFinalDuration_self env hD]
                · next hok =>
                    split
                    · next hagent =>
                        split
                        · next newUrl used1 heq =>
                            obtain ⟨hmem, hucontains, hne2, hused1⟩ :=
                              getUniqueVideoForScene_some _ _ _ _ heq
                            subst hused1
                            have hdec := unusedCandidates_cons_lt env used newUrl hmem hucontains
                            have hih := ih (some newUrl) (newUrl :: used) (by omega)
                            refine ⟨hih.1, hih.2.1, hih.2.2.1, ?_⟩
                            show (createSceneVideoAux env fuel (some newUrl)
                                (newUrl :: used)).1.resolutionAttempts + 1
                              ≤ unusedCandidates env used + 1
                            have hb := hih.2.2.2
                            omega
                        · next used1 heq =>
                            exact ⟨rfl, sceneFinalDuration_self env hD, rfl,
                              by exact Nat.le_add_left 1 _⟩
                    · next hagent =>
                        exact ⟨rfl, sceneFinalDuration_self env hD, rfl,
                          by exact Nat.le_add_left 1 _⟩
            · next hnone =>
                split
                · next hagent =>
                    split
                    · next newUrl used1 heq =>
                        obtain ⟨hmem, hucontains, hne2, hused1⟩ :=
                          getUniqueVideoForScene_some _ _ _ _ heq
                        subst hused1
                        have hdec := unusedCandidates_cons_lt env used newUrl hmem hucontains
                        have hih := ih (some newUrl) (newUrl :: used) (by omega)
                        refine ⟨hih.1, hih.2.1, hih.2.2.1, ?_⟩
                        have hb := hih.2.2.2
                        omega
                    · next used1 heq =>
                        exact ⟨rfl, sceneFinalDuration_self env hD, rfl,
                          by exact Nat.zero_le _⟩
                · next hagent =>
                    exact ⟨rfl, sceneFinalDuration_self env hD, rfl,
                      by exact Nat.zero_le _⟩




/-- C1: for every scene whose narration audio file exists (with positive
visual asset durations), create_scene_video returns success and the
written scene clip lasts exactly the narration duration, whatever the
visual source; and the duration reconciler never fails, returning a clip
of exactly the target duration in both its normal path and its
freeze-frame fallback path. -/
theorem scene_duration_invariant (env : SceneEnv) (url : Option String)
    (used : List String)
    (hA : env.audioExists = true) (hD : 0 ≤ env.audioDuration)
    (hm : ∀ dm, env.manimVideo = some dm → 0 < dm)
    (hdl : ∀ u, 0 < env.downloadedDuration u) :
    ((createSceneVideo env url used).1.success = true
      ∧ (createSceneVideo env url used).1.clipDuration = env.audioDuration
      ∧ (createSceneVideo env url used).1.reportedDuration = env.audioDuration)
    ∧ (∀ (c : Clip) (target : ℚ), 0 < c.duration →
        (createLoopedVideo c target).duration = target
        ∧ (createLoopedVideoFallback c target).duration = target) := by
  constructor
  · have h := createSceneVideoAux_spec env hA hD hm hdl
      (unusedCandidates env used + 1) url used (Nat.lt_succ_self _)
    exact ⟨h.1, h.2.1, h.2.2.1⟩
  · intro c target hc
    exact ⟨createLoopedVideo_duration c target hc,
      createLoopedVideoFallback_duration c target⟩

/-- C1 witness: a scene with a 3s manim asset and 2s of narration yields a
successful scene clip of exactly 2s. -/
theorem scene_duration_invariant_witness :
    (createSceneVideo truncSceneEnv none []).1.success = true
    ∧ (createSceneVideo truncSceneEnv none []).1.clipDuration = 2
    ∧ (createLoopedVideo (assetClip 3) 2).duration = 2 := by
  have h := scene_duration_invariant truncSceneEnv none [] rfl
    (by show (0 : ℚ) ≤ 2; norm_num)
    (by intro dm hdm
        injection (show (some 3 : Option ℚ) = some dm from hdm) with h3
        rw [← h3]
        norm_num)
    (by intro u
        show (0 : ℚ) < 1
        norm_num)
  exact ⟨h.1.1, h.1.2.1, (h.2 (assetClip 3) 2 (by show (0 : ℚ) < 3; norm_num)).1⟩

/-- C4: when no illustration agent is supplied and the scene has no manim
video, a failed download still produces a successful scene using the
title placeholder, and a missing visual source produces a successful
scene using the content placeholder; visual-source absence alone never
fails a scene. -/
theorem placeholder_fallback_no_agent (env : SceneEnv) (used : List String)
    (hA : env.audioExists = true)
    (hagent : env.hasAgent = false)
    (hmv : env.manimVideo = none) :
    (∀ u, u ≠ "" → env.downloadOk u = false →
      (createSceneVideo env (some u) used).1.success = true
      ∧ (createSceneVideo env (some u) used).1.visual
          = some VisualKind.placeholderTitle)
    ∧ ((createSceneVideo env none used).1.success = true
      ∧ (createSceneVideo env none used).1.visual
          = some VisualKind.placeholderContent) := by
  constructor
  · intro u hne hdl
    have hstep : createSceneVideo env (some u) used
        = createSceneVideoStep env
            (createSceneVideoAux env (unusedCandidates env used)) (some u) used := rfl
    rw [hstep]
    unfold createSceneVideoStep
    simp [hA, hmv, hagent, hdl, hne]
  · have hstep : createSceneVideo env none used
        = createSceneVideoStep env
            (createSceneVideoAux env (unusedCandidates env used)) none used := rfl
    rw [hstep]
    unfold createSceneVideoStep
    simp [hA, hmv, hagent]

/-- C4 witness: with no agent, a scene whose download fails ends on the
title placeholder and a scene with no source ends on the content
placeholder, both successfully. -/
theorem placeholder_fallback_no_agent_witness :
    (createSceneVideo noAgentEnv (some "http://v") []).1.success = true
    ∧ (createSceneVideo noAgentEnv (some "http://v") []).1.visual
        = some VisualKind.placeholderTitle
    ∧ (createSceneVideo noAgentEnv none []).1.success = true
    ∧ (createSceneVideo noAgentEnv none []).1.visual
        = some VisualKind.placeholderContent := by
  have h := placeholder_fallback_no_agent noAgentEnv [] rfl rfl rfl
  have h1 := h.1 "http://v" (by decide) rfl
  exact ⟨h1.1, h1.2, h.2.1, h.2.2⟩

/-- C5 counterexample: with an illustration agent available and every
download failing, a single scene makes three resolution attempts (the
original url plus two provider alternates), so scene assembly is not
bounded by two resolution attempts. -/
theorem retry_ceiling_counterexample :
    (createSceneVideo retryCexEnv (some "z") []).1.resolutionAttempts = 3
    ∧ ¬ ((createSceneVideo retryCexEnv (some "z") []).1.resolutionAttempts ≤ 2) := by
  have h3 : (createSceneVideo retryCexEnv (some "z") []).1.resolutionAttempts = 3 := rfl
  exact ⟨h3, by rw [h3]; omega⟩

/-- C5 amended: on visual failure with an agent available the assembler
retries by recursion as long as the provider supplies fresh unique urls;
every input terminates with a successful result, and the number of
resolution attempts is bounded by one plus the number of provider
candidates not yet used, not by two. -/
theorem retry_bounded_by_candidates (env : SceneEnv) (url : Option String)
    (used : List String)
    (hA : env.audioExists = true) (hD : 0 ≤ env.audioDuration)
    (hm : ∀ dm, env.manimVideo = some dm → 0 < dm)
    (hdl : ∀ u, 0 < env.downloadedDuration u) :
    (createSceneVideo env url used).1.success = true
    ∧ (createSceneVideo env url used).1.resolutionAttempts
        ≤ unusedCandidates env used + 1 := by
  have h := createSceneVideoAux_spec env hA hD hm hdl
    (unusedCandidates env used + 1) url used (Nat.lt_succ_self _)
  exact ⟨h.1, h.2.2.2⟩

/-- C5 amended witness: the exhaustion scenario terminates successfully
within the candidate bound. -/
theorem retry_bounded_by_candidates_witness :
    (createSceneVideo retryCexEnv (some "z") []).1.success = true
    ∧ (createSceneVideo retryCexEnv (some "z") []).1.resolutionAttempts
        ≤ unusedCandidates retryCexEnv [] + 1 := by
  exact retry_bounded_by_candidates retryCexEnv (some "z") [] rfl
    (by show (0 : ℚ) ≤ 1; norm_num)
    (by intro dm hdm
        exact Option.noConfusion hdm)
    (by intro u
        show (0 : ℚ) < 1
        norm_num)


/-- C3: for a nonempty list of N narration lines and audio duration D,
extract_dialogue_from_content gives line i the window from i times D/N to
the minimum of (i+1) times D/N and D; consecutive windows share their
endpoint (no gaps or overlaps), the first window starts at 0, the windows
cover [0, D], the last window ends exactly at D, and an empty list yields
no windows. -/
theorem caption_timing_partition (content : List String) (D : ℚ)
    (hne : content ≠ []) (hD : 0 ≤ D) :
    (extract_dialogue_from_content content D).length = content.length
    ∧ (∀ i, i < content.length →
        dialogueStart content D i = (i : ℚ) * (D / content.length)
        ∧ dialogueStop content D i = min (((i : ℚ) + 1) * (D / content.length)) D)
    ∧ (∀ i, i + 1 < content.length →
        dialogueStop content D i = dialogueStart content D (i + 1))
    ∧ dialogueStart content D 0 = 0
    ∧ dialogueStop content D (content.length - 1) = D
    ∧ (∀ t, 0 ≤ t → t ≤ D →
        ∃ i, i < content.length ∧ dialogueStart content D i ≤ t
          ∧ t ≤ dialogueStop content D i)
    ∧ extract_dialogue_from_content [] D = [] := by
  refine ⟨extract_dialogue_length content D,
    fun i hi => ⟨dialogueStart_eq content D i hi, dialogueStop_eq content D i hi⟩,
    fun i hi => dialogue_chain content D hD i hi,
    dialogue_first content D hne,
    dialogue_last content D hne hD,
    fun t h0 h1 => dialogue_cover content D hne hD t h0 h1,
    by simp [extract_dialogue_from_content]⟩

/-- C3 witness: with two lines and a 3s narration, the first window ends
where the second starts and the second ends exactly at 3. -/
theorem caption_timing_partition_witness :
    dialogueStop ["a", "b"] 3 0 = dialogueStart ["a", "b"] 3 1
    ∧ dialogueStop ["a", "b"] 3 1 = 3 := by
  have h := caption_timing_partition ["a", "b"] 3 (by simp) (by norm_num)
  refine ⟨h.2.2.1 0 (by norm_num), ?_⟩
  have h2 := h.2.2.2.2.1
  simpa using h2


theorem randomChoice_mem (pick : ℕ) (l : List String) (h : l ≠ []) :
    randomChoice pick l ∈ l := by
  unfold randomChoice
  have hlt : pick % l.length < l.length := Nat.mod_lt _ (List.length_pos.mpr h)
  rw [List.getD_eq_getElem _ _ hlt]
  exact List.getElem_mem hlt

/-- C8: the transition selector always lands in the five-effect palette;
the four vocabulary rules fire in priority order with first match winning,
each yielding a member of its stated set; with no match the result is
determined by the transition index modulo 4; and an internal error yields
crossfade. -/
theorem transition_selector_spec (errored : Bool) (prev next : List String)
    (idx pA pD pS : ℕ) :
    selectDynamicTransition errored prev next idx pA pD pS ∈ transitionEffects
    ∧ (errored = true →
        selectDynamicTransition errored prev next idx pA pD pS = "crossfade")
    ∧ (errored = false →
        (anyKeyword actionKeywords (sceneText prev) (sceneText next) = true →
          selectDynamicTransition errored prev next idx pA pD pS
            ∈ ["zoom_in", "zoom_out", "quick_fade"])
        ∧ (anyKeyword actionKeywords (sceneText prev) (sceneText next) = false →
            anyKeyword dramaticKeywords (sceneText prev) (sceneText next) = true →
            selectDynamicTransition errored prev next idx pA pD pS
              ∈ ["fade_to_black", "crossfade"])
        ∧ (anyKeyword actionKeywords (sceneText prev) (sceneText next) = false →
            anyKeyword dramaticKeywords (sceneText prev) (sceneText next) = false →
            anyKeyword timeKeywords (sceneText prev) (sceneText next) = true →
            selectDynamicTransition errored prev next idx pA pD pS = "quick_fade")
        ∧ (anyKeyword actionKeywords (sceneText prev) (sceneText next) = false →
            anyKeyword dramaticKeywords (sceneText prev) (sceneText next) = false →
            anyKeyword timeKeywords (sceneText prev) (sceneText next) = false →
            anyKeyword scaleKeywords (sceneText prev) (sceneText next) = true →
            selectDynamicTransition errored prev next idx pA pD pS
              ∈ ["zoom_in", "zoom_out"])
        ∧ (anyKeyword actionKeywords (sceneText prev) (sceneText next) = false →
            anyKeyword dramaticKeywords (sceneText prev) (sceneText next) = false →
            anyKeyword timeKeywords (sceneText prev) (sceneText next) = false →
            anyKeyword scaleKeywords (sceneText prev) (sceneText next) = false →
            selectDynamicTransition errored prev next idx pA pD pS
              = (if idx % 4 = 0 then "crossfade"
                 else if idx % 4 = 1 then "zoom_in"
                 else if idx % 4 = 2 then "fade_to_black"
                 else "quick_fade"))) := by
  cases errored with
  | true =>
      refine ⟨by simp [selectDynamicTransition, transitionEffects],
        fun _ => rfl, fun h => by simp at h⟩
  | false =>
      unfold selectDynamicTransition
      by_cases hA : anyKeyword actionKeywords (sceneText prev) (sceneText next) = true
      · have hm := randomChoice_mem pA ["zoom_in", "zoom_out", "quick_fade"] (by simp)
        simp only [hA, transitionEffects]
        simp at hm ⊢
        tauto
      · simp only [Bool.not_eq_true] at hA
        by_cases hDr : anyKeyword dramaticKeywords (sceneText prev) (sceneText next) = true
        · have hm := randomChoice_mem pD ["fade_to_black", "crossfade"] (by simp)
          simp only [hA, hDr, transitionEffects]
          simp at hm ⊢
          tauto
        · simp only [Bool.not_eq_true] at hDr
          by_cases hT : anyKeyword timeKeywords (sceneText prev) (sceneText next) = true
          · simp only [hA, hDr, hT, transitionEffects]
            simp
          · simp only [Bool.not_eq_true] at hT
            by_cases hS : anyKeyword scaleKeywords (sceneText prev) (sceneText next) = true
            · have hm := randomChoice_mem pS ["zoom_in", "zoom_out"] (by simp)
              simp only [hA, hDr, hT, hS, transitionEffects]
              simp at hm ⊢
              tauto
            · simp only [Bool.not_eq_true] at hS
              simp only [hA, hDr, hT, hS, transitionEffects]
              refine ⟨?_, by simp⟩
              by_cases h0 : idx % 4 = 0 <;> by_cases h1 : idx % 4 = 1 <;>
                by_cases h2 : idx % 4 = 2 <;> simp [h0, h1, h2]

/-- C8 witness: content with no vocabulary match at transition index 2
selects fade_to_black by the index rule, inside the palette. -/
theorem transition_selector_spec_witness :
    selectDynamicTransition false ["x"] ["y"] 2 0 0 0 = "fade_to_black"
    ∧ selectDynamicTransition false ["x"] ["y"] 2 0 0 0 ∈ transitionEffects := by
  have h := transition_selector_spec false ["x"] ["y"] 2 0 0 0
  have hd := (h.2.2 rfl).2.2.2.2 (by decide) (by decide) (by decide) (by decide)
  refine ⟨?_, h.1⟩
  rw [hd]
  norm_num


/-- C6 counterexample: a network error raised mid stream, after 5 bytes of
body were written, returns a failure while leaving the partial file at the
output path, because the RequestException handler does not remove it. -/
theorem partial_file_counterexample :
    (download_video_from_url "http://x" 50
      (FetchOutcome.response
        { contentType := "video/mp4", contentLength := none
        , chunks := [5], midStreamError := true }) true).failure
      = some DlFailure.networkError
    ∧ (download_video_from_url "http://x" 50
      (FetchOutcome.response
        { contentType := "video/mp4", contentLength := none
        , chunks := [5], midStreamError := true }) true).fileAt = some [5] := by
  constructor <;> rfl

/-- C6 amended: a failure for any reason other than a network error or the
empty-file check leaves no file at the output path (in particular the
invalid-video-decode failure removes the downloaded file), and a network
error raised before the body is streamed leaves no file; but whenever the
pre-body guards pass, a network error raised mid stream always returns a
failure with the written body chunks still on disk, and an empty
downloaded file always returns a failure with the (empty) file still on
disk at the output path. -/
theorem download_cleanup_behaviour (videoUrl : String) (maxMb : ℕ)
    (fetch : FetchOutcome) (r : HttpResponse) (dec : Bool) :
    (∀ e, (download_video_from_url videoUrl maxMb fetch dec).failure = some e →
        e ≠ DlFailure.networkError → e ≠ DlFailure.emptyFile →
        (download_video_from_url videoUrl maxMb fetch dec).fileAt = none)
    ∧ (fetch = FetchOutcome.requestError →
        (download_video_from_url videoUrl maxMb fetch dec).fileAt = none)
    ∧ (strStartsWith videoUrl "http://" = true →
        videoContentTypeOk r.contentType = true →
        (match r.contentLength with
          | some len => decide ((len : ℚ) / (1024 * 1024) > (maxMb : ℚ))
          | none => false) = false →
        r.midStreamError = true →
        (download_video_from_url videoUrl maxMb (FetchOutcome.response r) dec).failure
            = some DlFailure.networkError
        ∧ (download_video_from_url videoUrl maxMb (FetchOutcome.response r) dec).fileAt
            = some (r.chunks.filter (fun sz => sz ≠ 0)))
    ∧ (strStartsWith videoUrl "http://" = true →
        videoContentTypeOk r.contentType = true →
        (match r.contentLength with
          | some len => decide ((len : ℚ) / (1024 * 1024) > (maxMb : ℚ))
          | none => false) = false →
        r.midStreamError = false →
        (r.chunks.filter (fun sz => sz ≠ 0)).sum = 0 →
        (download_video_from_url videoUrl maxMb (FetchOutcome.response r) dec).failure
            = some DlFailure.emptyFile
        ∧ (download_video_from_url videoUrl maxMb (FetchOutcome.response r) dec).fileAt
            = some (r.chunks.filter (fun sz => sz ≠ 0))) := by
  refine ⟨?_, ?_, ?_, ?_⟩
  · intro e he hne1 hne2
    by_cases hurl : (!(strStartsWith videoUrl "http://"
        || strStartsWith videoUrl "https://")) = true
    · simp [download_video_from_url, hurl]
    · cases fetch with
      | requestError =>
          simp [download_video_from_url, hurl]
      | response r2 =>
          by_cases hct : (!videoContentTypeOk r2.contentType) = true
          · simp [download_video_from_url, hurl, hct]
          · by_cases hov : (match r2.contentLength with
                | some len => decide ((len : ℚ) / (1024 * 1024) > (maxMb : ℚ))
                | none => false) = true
            · simp [download_video_from_url, hurl, hct, hov]
            · by_cases hmid : r2.midStreamError = true
              · exfalso
                simp [download_video_from_url, hurl, hct, hov, hmid] at he
                first
                  | exact hne1 he
                  | exact hne1 he.symm
              · by_cases hsum : (r2.chunks.filter (fun sz => !decide (sz = 0))).sum = 0
                · exfalso
                  simp [download_video_from_url, hurl, hct, hov, hmid, hsum] at he
                  first
                    | exact hne2 he
                    | exact hne2 he.symm
                · by_cases hdec : dec = false
                  · simp [download_video_from_url, hurl, hct, hov, hmid, hsum, hdec]
                  · exfalso
                    simp [download_video_from_url, hurl, hct, hov, hmid, hsum, hdec] at he
  · intro hf
    subst hf
    by_cases hurl : (!(strStartsWith videoUrl "http://"
        || strStartsWith videoUrl "https://")) = true
    · simp [download_video_from_url, hurl]
    · simp [download_video_from_url, hurl]
  · intro hurl hct hov hmid
    constructor
    · simp [download_video_from_url, hurl, hct, hov, hmid]
    · simp [download_video_from_url, hurl, hct, hov, hmid]
  · intro hurl hct hov hmid hsum
    have hsum2 : (r.chunks.filter (fun sz => !decide (sz = 0))).sum = 0 := by
      simpa using hsum
    constructor
    · simp [download_video_from_url, hurl, hct, hov, hmid, hsum2]
    · simp [download_video_from_url, hurl, hct, hov, hmid, hsum2]

/-- C6 amended witness: a response with an empty body returns the
empty-file failure with the created zero-byte file still at the output
path; a mid-stream network error after a 3-byte chunk leaves that chunk on
disk; and a body that fails to decode as video ends with no file at the
output path. -/
theorem download_cleanup_behaviour_witness :
    ((download_video_from_url "http://x" 50
        (FetchOutcome.response
          { contentType := "video/mp4", contentLength := none
          , chunks := [], midStreamError := false }) true).failure
        = some DlFailure.emptyFile
      ∧ (download_video_from_url "http://x" 50
        (FetchOutcome.response
          { contentType := "video/mp4", contentLength := none
          , chunks := [], midStreamError := false }) true).fileAt = some [])
    ∧ ((download_video_from_url "http://x" 50
        (FetchOutcome.response
          { contentType := "video/mp4", contentLength := none
          , chunks := [3], midStreamError := true }) true).failure
        = some DlFailure.networkError
      ∧ (download_video_from_url "http://x" 50
        (FetchOutcome.response
          { contentType := "video/mp4", contentLength := none
          , chunks := [3], midStreamError := true }) true).fileAt = some [3])
    ∧ (download_video_from_url "http://x" 50
        (FetchOutcome.response
          { contentType := "video/mp4", contentLength := none
          , chunks := [4], midStreamError := false }) false).fileAt = none := by
  refine ⟨?_, ?_, ?_⟩
  · exact (download_cleanup_behaviour "http://x" 50
      (FetchOutcome.response
        { contentType := "video/mp4", contentLength := none
        , chunks := [], midStreamError := false })
      { contentType := "video/mp4", contentLength := none
      , chunks := [], midStreamError := false } true).2.2.2
      (by decide) (by decide) rfl rfl rfl
  · exact (download_cleanup_behaviour "http://x" 50
      (FetchOutcome.response
        { contentType := "video/mp4", contentLength := none
        , chunks := [3], midStreamError := true })
      { contentType := "video/mp4", contentLength := none
      , chunks := [3], midStreamError := true } true).2.2.1
      (by decide) (by decide) rfl rfl
  · exact (download_cleanup_behaviour "http://x" 50
      (FetchOutcome.response
        { contentType := "video/mp4", contentLength := none
        , chunks := [4], midStreamError := false })
      { contentType := "video/mp4", contentLength := none
      , chunks := [4], midStreamError := false } false).1
      DlFailure.corruptAsset rfl (by decide) (by decide)

/-- C7 counterexample: a response declaring content type
application/octet-stream, which does not denote video, is not rejected:
the download proceeds, persists the body and returns success. -/
theorem octet_stream_proceeds_counterexample :
    (download_video_from_url "http://x" 50
      (FetchOutcome.response
        { contentType := "application/octet-stream", contentLength := none
        , chunks := [7], midStreamError := false }) true).failure = none
    ∧ (download_video_from_url "http://x" 50
      (FetchOutcome.response
        { contentType := "application/octet-stream", contentLength := none
        , chunks := [7], midStreamError := false }) true).fileAt = some [7] := by
  constructor <;> rfl

/-- C7 amended: a response whose lowercased content type contains neither
video nor application/octet-stream is rejected with a wrong-content-type
failure before any body byte is persisted, and responses containing either
marker are never rejected for content type; a declared content length
whose megabyte value exceeds the cap is rejected with an oversize failure
before any byte is persisted; a url that does not start with http:// or
https:// is rejected as invalid without any network request. -/
theorem download_guards (videoUrl : String) (maxMb : ℕ) (r : HttpResponse)
    (dec : Bool) :
    (strStartsWith videoUrl "http://" = false →
      strStartsWith videoUrl "https://" = false →
      download_video_from_url videoUrl maxMb (FetchOutcome.response r) dec
        = { failure := some DlFailure.invalidURL, fileAt := none
          , madeRequest := false })
    ∧ (videoContentTypeOk r.contentType = false →
        strStartsWith videoUrl "http://" = true →
        download_video_from_url videoUrl maxMb (FetchOutcome.response r) dec
          = { failure := some DlFailure.wrongContentType, fileAt := none
            , madeRequest := true })
    ∧ (videoContentTypeOk r.contentType = true →
        (download_video_from_url videoUrl maxMb (FetchOutcome.response r) dec).failure
          ≠ some DlFailure.wrongContentType)
    ∧ (∀ len, r.contentLength = some len →
        (len : ℚ) / (1024 * 1024) > (maxMb : ℚ) →
        videoContentTypeOk r.contentType = true →
        strStartsWith videoUrl "http://" = true →
        download_video_from_url videoUrl maxMb (FetchOutcome.response r) dec
          = { failure := some DlFailure.oversizeAsset, fileAt := none
            , madeRequest := true }) := by
  refine ⟨?_, ?_, ?_, ?_⟩
  · intro h1 h2
    unfold download_video_from_url
    rw [if_pos]
    simp [h1, h2]
  · intro hct hurl
    simp [download_video_from_url, hurl, hct]
  · intro hct
    by_cases hurl : (!(strStartsWith videoUrl "http://"
        || strStartsWith videoUrl "https://")) = true
    · simp [download_video_from_url, hurl]
    · by_cases hov : (match r.contentLength with
          | some len => decide ((len : ℚ) / (1024 * 1024) > (maxMb : ℚ))
          | none => false) = true
      · simp [download_video_from_url, hurl, hct, hov]
      · by_cases hmid : r.midStreamError = true
        · simp [download_video_from_url, hurl, hct, hov, hmid]
        · by_cases hsum : (r.chunks.filter (fun sz => !decide (sz = 0))).sum = 0
          · simp [download_video_from_url, hurl, hct, hov, hmid, hsum]
          · by_cases hdec : dec = false
            · simp [download_video_from_url, hurl, hct, hov, hmid, hsum, hdec]
            · simp [download_video_from_url, hurl, hct, hov, hmid, hsum, hdec]
  · intro len hlen hbig hct hurl
    simp [download_video_from_url, hurl, hct, hlen, hbig]

/-- C7 amended witness: a ftp url is invalid without a request, a
text/html response is rejected for content type with no file, and a
declared 60MB content length is rejected as oversize with no file. -/
theorem download_guards_witness :
    download_video_from_url "ftp://x" 50
      (FetchOutcome.response
        { contentType := "video/mp4", contentLength := none
        , chunks := [5], midStreamError := false }) true
      = { failure := some DlFailure.invalidURL, fileAt := none
        , madeRequest := false }
    ∧ download_video_from_url "http://x" 50
      (FetchOutcome.response
        { contentType := "text/html", contentLength := none
        , chunks := [5], midStreamError := false }) true
      = { failure := some DlFailure.wrongContentType, fileAt := none
        , madeRequest := true }
    ∧ download_video_from_url "http://x" 50
      (FetchOutcome.response
        { contentType := "video/mp4", contentLength := some 62914560
        , chunks := [5], midStreamError := false }) true
      = { failure := some DlFailure.oversizeAsset, fileAt := none
        , madeRequest := true } := by
  refine ⟨?_, ?_, ?_⟩
  · exact (download_guards "ftp://x" 50
      { contentType := "video/mp4", contentLength := none
      , chunks := [5], midStreamError := false } true).1 (by decide) (by decide)
  · exact (download_guards "http://x" 50
      { contentType := "text/html", contentLength := none
      , chunks := [5], midStreamError := false } true).2.1 (by decide) (by decide)
  · exact (download_guards "http://x" 50
      { contentType := "video/mp4", contentLength := some 62914560
      , chunks := [5], midStreamError := false } true).2.2.2 62914560 rfl
      (by norm_num) (by decide) (by decide)


theorem getUniqueVideoForScene_none (pool used used1 : List String)
    (h : getUniqueVideoForScene pool used = (none, used1)) : used1 = used := by
  unfold getUniqueVideoForScene at h
  rcases hf : pool.find? (fun u => !(u == "") && !(used.contains u)) with _ | v
  · rw [hf] at h
    simp only [Prod.mk.injEq] at h
    exact h.2.symm
  · rw [hf] at h
    simp at h

theorem processScenesAssign_snd_spec (envs : List SceneEnv) (used : List String) :
    (∀ u ∈ (processScenesAssign envs used).1.filterMap Prod.snd,
      used.contains u = false)
    ∧ ((processScenesAssign envs used).1.filterMap Prod.snd).Nodup := by
  induction envs generalizing used with
  | nil => simp [processScenesAssign]
  | cons env rest ih =>
      unfold processScenesAssign
      by_cases hm : env.manimVideo.isSome
      · simp only [hm, if_true, List.filterMap_cons]
        exact ih used
      · simp only [hm, Bool.false_eq_true, if_false]
        rcases hg : getUniqueVideoForScene env.searchResults used with ⟨o, used1⟩
        cases o with
        | none =>
            have hused1 : used1 = used := getUniqueVideoForScene_none _ _ _ hg
            subst hused1
            simp only [List.filterMap_cons]
            exact ih _
        | some url =>
            obtain ⟨hmem, hc, hne, hused1⟩ := getUniqueVideoForScene_some _ _ _ _ hg
            subst hused1
            have hih := ih (url :: used)
            simp only [List.filterMap_cons]
            constructor
            · intro u hu
              rcases List.mem_cons.mp hu with rfl | hu2
              · exact hc
              · have := hih.1 u hu2
                simp only [List.contains_cons, Bool.or_eq_false_iff] at this
                exact this.2
            · refine List.Nodup.cons ?_ hih.2
              intro hmem2
              have := hih.1 url hmem2
              simp at this

/-- C9 counterexample: in a two-scene run, scene 0 is pre-assigned url a
and scene 1 url b; compile_final_video resets the used set, scene 0
downloads a, scene 1 fails on b, and the retry (starting from the reset
set) ends up on a as well: two scenes of one run resolve to the same
remote-footage url. -/
theorem run_unique_counterexample :
    (generate_video [runCexEnvA, runCexEnvB] (fun _ => false)
        (fun _ => (0, 0, 0))).map (fun p => p.2.visuals)
      = some [some (VisualKind.remoteFootage "a"),
              some (VisualKind.remoteFootage "a")] := by
  rfl

/-- C9 amended: get_unique_video_for_scene never returns a url already in
the used-videos set and adds every url it returns to the set, so the urls
it hands out across one threaded sequence of calls are pairwise distinct;
however, urls assigned before the reset at the start of
compile_final_video are not excluded after it, so two scenes of one run
can still resolve to the same remote url. -/
theorem unique_videos_within_window (pool used : List String) (u : String)
    (used1 : List String) (envs : List SceneEnv) :
    (getUniqueVideoForScene pool used = (some u, used1) →
      used.contains u = false ∧ used1 = u :: used ∧ used1.contains u = true)
    ∧ ((processScenesAssign envs []).1.filterMap Prod.snd).Nodup := by
  constructor
  · intro h
    obtain ⟨_, hc, _, h1⟩ := getUniqueVideoForScene_some pool used u used1 h
    exact ⟨hc, h1, by simp [h1]⟩
  · exact (processScenesAssign_snd_spec envs []).2

/-- C9 amended witness: a first call on the pool [a] returns a, marks it
used, and the two-scene pre-pass assigns distinct urls. -/
theorem unique_videos_within_window_witness :
    ([] : List String).contains "a" = false
    ∧ (["a"] : List String) = "a" :: []
    ∧ (["a"] : List String).contains "a" = true := by
  exact (unique_videos_within_window ["a"] [] "a" ["a"]
    [runCexEnvA, runCexEnvB]).1 rfl


theorem selectTransitions_length (contents : List (List String))
    (errFlag : ℕ → Bool) (picks : ℕ → ℕ × ℕ × ℕ) :
    (selectTransitions contents errFlag picks).length
      = if contents.length ≤ 1 then 0 else contents.length - 1 := by
  unfold selectTransitions
  by_cases h : contents.length ≤ 1
  · simp [h]
  · simp [h]

theorem timelineDurations_sum (rest : List ℚ) (ts : List String) (d0 : ℚ)
    (h : rest.length = ts.length) :
    (timelineDurations (d0 :: rest) ts).sum
      = (d0 :: rest).sum
        + ((ts.filter (fun t => t = "fade_to_black")).length : ℚ) * (1 / 2) := by
  induction rest generalizing ts d0 with
  | nil =>
      cases ts with
      | nil => simp [timelineDurations]
      | cons t ts2 => simp at h
  | cons d1 rest2 ih =>
      cases ts with
      | nil => simp at h
      | cons t ts2 =>
          have h2 : rest2.length = ts2.length := by simpa using h
          have hih := ih ts2 d1 h2
          simp only [timelineDurations, List.zip_cons_cons, List.foldr_cons] at hih ⊢
          by_cases ht : t = "fade_to_black"
          · subst ht
            have hjun : junctionInsertedDurations "fade_to_black" = [1 / 2] := by
              simp [junctionInsertedDurations]
            have hfil : List.filter (fun s => decide (s = "fade_to_black"))
                ("fade_to_black" :: ts2)
                = "fade_to_black"
                  :: List.filter (fun s => decide (s = "fade_to_black")) ts2 := by
              simp
            simp only [hjun, hfil, List.sum_cons, List.sum_append, List.sum_nil,
              List.length_cons] at hih ⊢
            push_cast at hih ⊢
            ring_nf at hih ⊢
            linarith
          · have hjun : junctionInsertedDurations t = [] := by
              simp [junctionInsertedDurations, ht]
            have hfil : List.filter (fun s => decide (s = "fade_to_black")) (t :: ts2)
                = List.filter (fun s => decide (s = "fade_to_black")) ts2 := by
              simp [ht]
            simp only [hjun, hfil, List.sum_cons, List.nil_append] at hih ⊢
            linarith

theorem processScenesAssign_fst (envs : List SceneEnv) (used : List String) :
    (processScenesAssign envs used).1.map Prod.fst = envs := by
  induction envs generalizing used with
  | nil => rfl
  | cons env rest ih =>
      unfold processScenesAssign
      by_cases hm : env.manimVideo.isSome
      · simp only [hm, if_true, List.map_cons]
        rw [ih]
      · simp only [hm, Bool.false_eq_true, if_false]
        rcases hg : getUniqueVideoForScene env.searchResults used with ⟨o, used1⟩
        cases o with
        | none =>
            simp only [List.map_cons]
            rw [ih]
        | some url =>
            simp only [List.map_cons]
            rw [ih]

theorem compileScenesLoop_spec (scenes : List (SceneEnv × Option String)) :
    ∀ used,
    (∀ p ∈ scenes, p.1.audioExists = true ∧ 0 ≤ p.1.audioDuration
      ∧ (∀ dm, p.1.manimVideo = some dm → 0 < dm)
      ∧ (∀ u, 0 < p.1.downloadedDuration u)) →
    ∃ rs usedF, compileScenesLoop scenes used = some (rs, usedF)
      ∧ rs.map SceneResult.reportedDuration
          = scenes.map (fun p => p.1.audioDuration)
      ∧ rs.map SceneResult.clipDuration
          = scenes.map (fun p => p.1.audioDuration) := by
  induction scenes with
  | nil =>
      intro used h
      exact ⟨[], used, rfl, rfl, rfl⟩
  | cons p rest ih =>
      intro used h
      obtain ⟨env, url⟩ := p
      obtain ⟨hA, hD, hm, hdl⟩ := h (env, url) (by simp)
      have hscene := createSceneVideoAux_spec env hA hD hm hdl
        (unusedCandidates env used + 1) url used (Nat.lt_succ_self _)
      obtain ⟨rs, usedF, hrest, hmap1, hmap2⟩ :=
        ih (createSceneVideo env url used).2 (fun q hq => h q (by simp [hq]))
      refine ⟨(createSceneVideo env url used).1 :: rs, usedF, ?_, ?_, ?_⟩
      · unfold compileScenesLoop
        rw [if_pos (show (createSceneVideo env url used).1.success = true from hscene.1)]
        rw [hrest]
      · simp only [List.map_cons, hmap1, List.cons.injEq]
        exact ⟨hscene.2.2.1, trivial⟩
      · simp only [List.map_cons, hmap2, List.cons.injEq]
        exact ⟨hscene.2.1, trivial⟩


/-- C10: the total_duration of compile_final_video equals exactly the sum
of the scenes narration durations; generate_video propagates it unchanged
into the final result; it includes neither the half-second fade-to-black
interstitials nor the 3 second intro and outro cards, so with intro and
outro attached the emitted file is strictly longer than total_duration. -/
theorem total_duration_excludes_interstitials (envs : List SceneEnv)
    (errFlag : ℕ → Bool) (picks : ℕ → ℕ × ℕ × ℕ)
    (h : ∀ env ∈ envs, env.audioExists = true ∧ 0 ≤ env.audioDuration
      ∧ (∀ dm, env.manimVideo = some dm → 0 < dm)
      ∧ (∀ u, 0 < env.downloadedDuration u)) :
    ∃ c, compile_final_video (processScenesAssign envs []).1 errFlag picks = some c
      ∧ generate_video envs errFlag picks = some (c.totalDuration, c)
      ∧ c.totalDuration = (envs.map SceneEnv.audioDuration).sum
      ∧ compiledPhysicalDuration c
          = c.totalDuration
            + ((c.transitionsUsed.filter (fun t => t = "fade_to_black")).length : ℚ)
              * (1 / 2)
      ∧ c.totalDuration
          < addIntroOutroDuration (compiledPhysicalDuration c) true true := by
  have hfst := processScenesAssign_fst envs []
  set scenes := (processScenesAssign envs []).1 with hscdef
  have hsc : ∀ p ∈ scenes, p.1.audioExists = true ∧ 0 ≤ p.1.audioDuration
      ∧ (∀ dm, p.1.manimVideo = some dm → 0 < dm)
      ∧ (∀ u, 0 < p.1.downloadedDuration u) := by
    intro p hp
    apply h p.1
    rw [← hfst]
    exact List.mem_map_of_mem _ hp
  obtain ⟨rs, usedF, hloop, hrep, hclip⟩ := compileScenesLoop_spec scenes [] hsc
  have hcompile : compile_final_video scenes errFlag picks = some
      { totalDuration := (rs.map SceneResult.reportedDuration).sum
      , transitionsUsed := selectTransitions (scenes.map fun s => s.1.content)
          errFlag picks
      , clipDurations := rs.map SceneResult.clipDuration
      , visuals := rs.map SceneResult.visual } := by
    unfold compile_final_video
    rw [hloop]
  have hmapfold : scenes.map (fun p => p.1.audioDuration)
      = envs.map SceneEnv.audioDuration := by
    rw [← hfst, List.map_map]
    rfl
  have htot : (rs.map SceneResult.reportedDuration).sum
      = (envs.map SceneEnv.audioDuration).sum := by
    rw [hrep, hmapfold]
  have hclip2 : rs.map SceneResult.clipDuration = envs.map SceneEnv.audioDuration := by
    rw [hclip, hmapfold]
  have hlen : scenes.length = envs.length := by
    rw [← hfst, List.length_map]
  have hphys : (timelineDurations (rs.map SceneResult.clipDuration)
        (selectTransitions (scenes.map fun s => s.1.content) errFlag picks)).sum
      = (rs.map SceneResult.reportedDuration).sum
        + (((selectTransitions (scenes.map fun s => s.1.content) errFlag picks).filter
            (fun t => t = "fade_to_black")).length : ℚ) * (1 / 2) := by
    rw [hclip2, htot]
    have hts : (selectTransitions (scenes.map fun s => s.1.content) errFlag picks).length
        = if envs.length ≤ 1 then 0 else envs.length - 1 := by
      rw [selectTransitions_length]
      rw [List.length_map, hlen]
    rcases hcase : envs.map SceneEnv.audioDuration with _ | ⟨d0, restD⟩
    · have henvs : envs = [] := by
        have := congrArg List.length hcase
        simpa using this
      subst henvs
      have hlen0 : (selectTransitions (scenes.map fun s => s.1.content)
          errFlag picks).length = 0 := by
        rw [hts]
        simp
      rw [List.length_eq_zero.mp hlen0]
      simp [timelineDurations]
    · have hrest : restD.length
          = (selectTransitions (scenes.map fun s => s.1.content) errFlag picks).length := by
        have hlen2 : envs.length = restD.length + 1 := by
          have := congrArg List.length hcase
          simpa using this
      -- lengths: restD.length = envs.length - 1 and ts matches
        rw [hts, hlen2]
        by_cases hr : restD.length + 1 ≤ 1
        · have : restD.length = 0 := by omega
          simp [hr, this]
        · simp [hr]
      exact timelineDurations_sum restD _ d0 hrest
  refine ⟨_, hcompile, ?_, htot, hphys, ?_⟩
  · show (match compile_final_video scenes errFlag picks with
        | none => none
        | some c => some (c.totalDuration, c)) = _
    rw [hcompile]
  · show (rs.map SceneResult.reportedDuration).sum
      < addIntroOutroDuration (timelineDurations (rs.map SceneResult.clipDuration)
          (selectTransitions (scenes.map fun s => s.1.content) errFlag picks)).sum true true
    rw [show addIntroOutroDuration (timelineDurations (rs.map SceneResult.clipDuration)
        (selectTransitions (scenes.map fun s => s.1.content) errFlag picks)).sum true true
      = 3 + (timelineDurations (rs.map SceneResult.clipDuration)
          (selectTransitions (scenes.map fun s => s.1.content) errFlag picks)).sum + 3
      from rfl]
    rw [hphys]
    have hk : (0 : ℚ) ≤ (((selectTransitions (scenes.map fun s => s.1.content)
        errFlag picks).filter (fun t => t = "fade_to_black")).length : ℚ) := by
      positivity
    linarith

/-- C10 witness: a one-scene run with 2s narration compiles with
total_duration exactly 2, strictly below the emitted duration once the
intro and outro cards are attached. -/
theorem total_duration_excludes_interstitials_witness :
    ∃ c, compile_final_video (processScenesAssign [truncSceneEnv] []).1
        (fun _ => false) (fun _ => (0, 0, 0)) = some c
      ∧ c.totalDuration = 2
      ∧ c.totalDuration
          < addIntroOutroDuration (compiledPhysicalDuration c) true true := by
  obtain ⟨c, h1, h2, h3, h4, h5⟩ := total_duration_excludes_interstitials
    [truncSceneEnv] (fun _ => false) (fun _ => (0, 0, 0))
    (by
      intro env henv
      have henv2 : env = truncSceneEnv := by simpa using henv
      subst henv2
      refine ⟨rfl, by show (0 : ℚ) ≤ 2; norm_num, ?_, ?_⟩
      · intro dm hdm
        injection (show (some 3 : Option ℚ) = some dm from hdm) with h3
        rw [← h3]
        norm_num
      · intro u
        show (0 : ℚ) < 1
        norm_num)
  refine ⟨c, h1, ?_, h5⟩
  rw [h3]
  show truncSceneEnv.audioDuration + 0 = 2
  norm_num [truncSceneEnv]

end VideoAgent
